import Mathlib

/-!
Verification development for the YouTube MP3 downloader (`youtube_mp3.py`).

The Python source is shallowly embedded below: pure string manipulation
becomes Lean functions on `String`/`List Char`; the external effects
(yt-dlp subprocesses, the Groq chat-completion call, the filesystem) are
passed in explicitly as parameters, so that the control flow of each
Python function is reproduced faithfully and the orchestration decisions
become provable facts.
-/

/-! ## Character and list-level string helpers (Python semantics) -/

/-- The whitespace characters stripped by the Python method `str.strip()`
(restricted to the ASCII range; the titles and replies concerned contain
no exotic Unicode space). -/
def pyWs (c : Char) : Bool :=
  c = ' ' || c = '\t' || c = '\n' || c = '\r' || c = '\x0b' || c = '\x0c'

/-- Python `str.strip()` on a character list: drop leading and trailing runs of
whitespace. -/
def pyStripL (cs : List Char) : List Char :=
  (((cs.dropWhile pyWs).reverse.dropWhile pyWs)).reverse

/-- Python `str.strip()`. -/
def pyStrip (s : String) : String := ⟨pyStripL s.data⟩

/-- Boolean list-prefix test (used for Python `str.startswith` and for
literal keywords inside the JSON grammar). -/
def isPrefixL : List Char → List Char → Bool
  | [], _ => true
  | _ :: _, [] => false
  | a :: as, b :: bs => if a = b then isPrefixL as bs else false

/-- Python `str.endswith`. -/
def isSuffixL (suf cs : List Char) : Bool := isPrefixL suf.reverse cs.reverse

/-- Python slicing `s[:-n]`. -/
def dropRightL (cs : List Char) (n : Nat) : List Char := cs.take (cs.length - n)

/-- Python `s.split(sep, 1)` restricted to the case where `sep` occurs
(leftmost occurrence): returns the part before and the part after it.
`none` models `sep not in s`. -/
def splitFirstL (sep : List Char) : List Char → Option (List Char × List Char)
  | [] => none
  | c :: rest =>
    if isPrefixL sep (c :: rest) then some ([], (c :: rest).drop sep.length)
    else
      match splitFirstL sep rest with
      | some (a, b) => some (c :: a, b)
      | none => none

/-- Python `s.split(sep, 1)` at the `String` level, together with the Python
membership test `sep in s` (which is `none`-freeness here). -/
def splitFirst (s sep : String) : Option (String × String) :=
  (splitFirstL sep.data s.data).map (fun p => (⟨p.1⟩, ⟨p.2⟩))

/-! ## A model of `json.loads`

The completion-service replies are parsed with `json.loads`.  The parser
below implements the JSON grammar (objects, arrays, strings, numbers,
the three literals, with insignificant whitespace and strict rejection
of trailing garbage).  `\uXXXX` string escapes are not modelled: the
replies concerned never contain them. -/

/-- A parsed JSON value.  Numbers keep their source lexeme: no claim
depends on numeric value, only on parse success/failure. -/
inductive JVal where
  | str (s : String)
  | num (lexeme : String)
  | bool (b : Bool)
  | null
  | arr (elems : List JVal)
  | obj (fields : List (String × JVal))

/-- JSON whitespace (the four characters `json.loads` skips). -/
def isWsChar (c : Char) : Bool := c = ' ' || c = '\t' || c = '\n' || c = '\r'

/-- Decode a single-character string escape, `\uXXXX` excluded. -/
def jsonEscape (c : Char) : Option Char :=
  if c = '\"' then some '\"'
  else if c = '\\' then some '\\'
  else if c = '/' then some '/'
  else if c = 'b' then some '\x08'
  else if c = 'f' then some '\x0c'
  else if c = 'n' then some '\n'
  else if c = 'r' then some '\r'
  else if c = 't' then some '\t'
  else none

/-- Parse the body of a JSON string after the opening quote; returns the
decoded content and the rest after the closing quote.  Raw control
characters are rejected, as in the strict mode of `json.loads`. -/
def parseStrBody : List Char → Option (List Char × List Char)
  | [] => none
  | '\"' :: cs => some ([], cs)
  | '\\' :: [] => none
  | '\\' :: e :: cs =>
    match jsonEscape e with
    | none => none
    | some d =>
      match parseStrBody cs with
      | none => none
      | some (content, rest) => some (d :: content, rest)
  | c :: cs =>
    if c.toNat < 32 then none
    else
      match parseStrBody cs with
      | none => none
      | some (content, rest) => some (c :: content, rest)

/-- Longest leading digit run. -/
def digitsL (cs : List Char) : List Char × List Char :=
  (cs.takeWhile Char.isDigit, cs.dropWhile Char.isDigit)

/-- Integer part of a JSON number (`0` or a nonzero-led digit run). -/
def parseIntPart : List Char → Option (List Char × List Char)
  | [] => none
  | c :: rest =>
    if c = '0' then some ([c], rest)
    else if c.isDigit then
      let p := digitsL rest
      some (c :: p.1, p.2)
    else none

/-- Optional fractional part. -/
def parseFracPart : List Char → Option (List Char × List Char)
  | '.' :: rest =>
    let p := digitsL rest
    if p.1.isEmpty then none else some ('.' :: p.1, p.2)
  | cs => some ([], cs)

/-- Optional exponent part. -/
def parseExpPart : List Char → Option (List Char × List Char)
  | [] => some ([], [])
  | c :: rest =>
    if c = 'e' ∨ c = 'E' then
      match rest with
      | s :: rest2 =>
        if s = '+' ∨ s = '-' then
          let p := digitsL rest2
          if p.1.isEmpty then none else some (c :: s :: p.1, p.2)
        else
          let p := digitsL rest
          if p.1.isEmpty then none else some (c :: p.1, p.2)
      | [] => none
    else some ([], c :: rest)

/-- A JSON number lexeme. -/
def parseNumber (cs : List Char) : Option (List Char × List Char) :=
  let sp : List Char × List Char :=
    match cs with
    | '-' :: rest => (['-'], rest)
    | _ => ([], cs)
  match parseIntPart sp.2 with
  | none => none
  | some (ip, cs2) =>
    match parseFracPart cs2 with
    | none => none
    | some (fp, cs3) =>
      match parseExpPart cs3 with
      | none => none
      | some (ep, cs4) => some (sp.1 ++ ip ++ fp ++ ep, cs4)

mutual

/-- Parse one JSON value (fuel-indexed recursion; the top-level entry
point supplies ample fuel). -/
def parseVal : Nat → List Char → Option (JVal × List Char)
  | 0, _ => none
  | _ + 1, [] => none
  | fuel + 1, c :: cs =>
    if c = '\x7b' then
      let cs1 := List.dropWhile isWsChar cs
      match cs1 with
      | '\x7d' :: rest => some (.obj [], rest)
      | _ =>
        match parseMembers fuel cs1 with
        | some (fs, rest) => some (.obj fs, rest)
        | none => none
    else if c = '[' then
      let cs1 := List.dropWhile isWsChar cs
      match cs1 with
      | ']' :: rest => some (.arr [], rest)
      | _ =>
        match parseElems fuel cs1 with
        | some (es, rest) => some (.arr es, rest)
        | none => none
    else if c = '\"' then
      match parseStrBody cs with
      | some (content, rest) => some (.str ⟨content⟩, rest)
      | none => none
    else if isPrefixL ['t', 'r', 'u', 'e'] (c :: cs) then
      some (.bool true, (c :: cs).drop 4)
    else if isPrefixL ['f', 'a', 'l', 's', 'e'] (c :: cs) then
      some (.bool false, (c :: cs).drop 5)
    else if isPrefixL ['n', 'u', 'l', 'l'] (c :: cs) then
      some (.null, (c :: cs).drop 4)
    else if c = '-' ∨ c.isDigit then
      match parseNumber (c :: cs) with
      | some (lex, rest) => some (.num ⟨lex⟩, rest)
      | none => none
    else none

/-- Parse the members of a JSON object after the opening brace (at least
one member; the empty object is handled by `parseVal`). -/
def parseMembers : Nat → List Char → Option (List (String × JVal) × List Char)
  | 0, _ => none
  | fuel + 1, cs =>
    match cs with
    | '\"' :: cs1 =>
      match parseStrBody cs1 with
      | none => none
      | some (key, cs2) =>
        match List.dropWhile isWsChar cs2 with
        | ':' :: cs3 =>
          match parseVal fuel (List.dropWhile isWsChar cs3) with
          | none => none
          | some (v, cs4) =>
            match List.dropWhile isWsChar cs4 with
            | ',' :: cs5 =>
              match parseMembers fuel (List.dropWhile isWsChar cs5) with
              | some (fs, rest) => some ((⟨key⟩, v) :: fs, rest)
              | none => none
            | '\x7d' :: cs5 => some ([(⟨key⟩, v)], cs5)
            | _ => none
        | _ => none
    | _ => none

/-- Parse the elements of a JSON array after the opening bracket (at
least one element; the empty array is handled by `parseVal`). -/
def parseElems : Nat → List Char → Option (List JVal × List Char)
  | 0, _ => none
  | fuel + 1, cs =>
    match parseVal fuel cs with
    | none => none
    | some (v, cs1) =>
      match List.dropWhile isWsChar cs1 with
      | ',' :: cs2 =>
        match parseElems fuel (List.dropWhile isWsChar cs2) with
        | some (es, rest) => some (v :: es, rest)
        | none => none
      | ']' :: cs2 => some ([v], cs2)
      | _ => none

end

/-- Model of `json.loads` on a character list: skip leading whitespace, parse one
value, require only whitespace after it. -/
def parseTopL (cs : List Char) : Option JVal :=
  match parseVal (2 * cs.length + 2) (List.dropWhile isWsChar cs) with
  | some (v, rest) => if (List.dropWhile isWsChar rest).isEmpty then some v else none
  | none => none

/-- Model of `json.loads`: `none` models `json.JSONDecodeError`. -/
def jsonParse (s : String) : Option JVal := parseTopL s.data

/-- Python `dict` construction from the parsed member list followed by
`.get key`: on duplicate keys the later member wins. -/
def lookupLast (fields : List (String × JVal)) (k : String) : Option JVal :=
  fields.foldl (fun acc kv => if kv.1 = k then some kv.2 else acc) none

/-- Python `metadata.get(key, \"\")` for the string-valued fields the service
contract prescribes; an absent key yields the empty-string default.  (A present
key bound to a non-string value is outside the modelled reply domain.) -/
def getStr (fields : List (String × JVal)) (k : String) : String :=
  match lookupLast fields k with
  | some (.str s) => s
  | _ => ""

/-! ## `sanitize_filename` (youtube_mp3.py lines 64-68) -/

/-- The character class removed by the `re.sub` call (the pattern is the
class of the nine characters below). -/
def isIllegalChar (c : Char) : Bool :=
  c = '\\' || c = '/' || c = '*' || c = '?' || c = ':' || c = '\"' ||
  c = '<' || c = '>' || c = '|'

/-- Embeds `sanitize_filename(filename)`: `None` and `""` are both falsy in
Python (`if not filename`), hence the `Option`; otherwise every
occurrence of an illegal character is removed. -/
def sanitize_filename (filename : Option String) : String :=
  match filename with
  | none => "unknown_title"
  | some s =>
    if s = "" then "unknown_title"
    else ⟨s.data.filter (fun c => !(isIllegalChar c))⟩

/-! ## `process_metadata` (youtube_mp3.py lines 247-309) -/

/-- The outcome of the Groq chat-completion call, which is external:
`fail` models any exception raised while constructing the client,
issuing the request, or indexing `choices` (caught at line 302);
`ok content` models a completed call whose message content is `content`
(`""` standing for both an empty string and `None`, the two falsy
values `if response_content` rejects). -/
inductive ApiOutcome where
  | fail
  | ok (content : String)

/-- Lines 253-257 and 305-309 (the two copies are identical): split the
raw name on the first `" - "`, returning `(parts[1].strip(),
parts[0].strip())`; without the delimiter, `(file_name, "Unknown
Artist")`.  (The guard `len(parts) == 2` always holds when `" - " in
file_name`, since the split is bounded to one.) -/
def heuristicFallback (file_name : String) : String × String :=
  match splitFirst file_name " - " with
  | some (a, b) => (pyStrip b, pyStrip a)
  | none => (file_name, "Unknown Artist")

/-- Lines 283-288: strip the reply, remove a leading ````` ```json `````
marker (exactly those seven characters) and a trailing ````` ``` `````
marker, and strip again. -/
def cleanL (cs : List Char) : List Char :=
  let c1 := pyStripL cs
  let c2 := if isPrefixL "```json".data c1 then c1.drop 7 else c1
  let c3 := if isSuffixL "```".data c2 then dropRightL c2 3 else c2
  pyStripL c3

/-- The cleanup pass at the `String` level. -/
def cleanupPass (s : String) : String := ⟨cleanL s.data⟩

/-- Extract the `title` and `artist` fields, each via `metadata.get`
from a parsed reply, provided the parse produced a `dict`; a JSON value
of any other shape makes `.get` raise `AttributeError`, which escapes
the inner `except json.JSONDecodeError` and lands in the outer
`except Exception` (line 302), i.e. the heuristic fallback.  `none`
means the parse itself failed. -/
inductive ParseStep where
  | fields (fs : List (String × JVal))
  | notDict
  | failed

/-- Classify one `json.loads` attempt on `s`. -/
def parseAttempt (s : String) : ParseStep :=
  match jsonParse s with
  | some (.obj fs) => .fields fs
  | some _ => .notDict
  | none => .failed

/-- Embeds `process_metadata(file_name)` (lines 247-309), with the environment
lookup of `GROQ_API_KEY` and the completion call passed in explicitly.
`api_key = none` models an unset variable and `some ""` an empty one;
`if not api_key` treats both alike. -/
def process_metadata (api_key : Option String) (outcome : ApiOutcome)
    (file_name : String) : String × String :=
  match api_key with
  | none => heuristicFallback file_name
  | some k =>
    if k = "" then heuristicFallback file_name
    else
      match outcome with
      | .fail => heuristicFallback file_name
      | .ok content =>
        if content = "" then (file_name, "Unknown Artist")
        else
          match parseAttempt content with
          | .fields fs => (getStr fs "title", getStr fs "artist")
          | .notDict => heuristicFallback file_name
          | .failed =>
            match parseAttempt (cleanupPass content) with
            | .fields fs => (getStr fs "title", getStr fs "artist")
            | .notDict => heuristicFallback file_name
            | .failed => ("", "")

/-! ## `download_audio` (youtube_mp3.py lines 115-194) -/

/-- The part of the yt-dlp `--dump-json` document that `download_audio`
reads: the `title` field of `video_info` (`""` models an absent title) and
the `id` field (already defaulted to the string `unknown`). -/
structure VideoInfo where
  title : String
  id : String

/-- Lines 124-127: fall back to `youtube_video_<id>` when the title is
missing or empty. -/
def videoTitle (vi : VideoInfo) : String :=
  if vi.title = "" then "youtube_video_" ++ vi.id else vi.title

/-- Python `os.path.join` for the two-component joins the script performs. -/
def joinPath (dir file : String) : String :=
  if isSuffixL ['/'] dir.data then dir ++ file else dir ++ "/" ++ file

/-- Lines 133-134: default the output directory to
`os.path.join(os.getcwd(), "downloads")`. -/
def resolvedDir (output_dir : Option String) (cwd : String) : String :=
  match output_dir with
  | none => joinPath cwd "downloads"
  | some d => d

/-- Line 139: the deterministic output path
`os.path.join(output_dir, f"{sanitized_title}.mp3")`. -/
def audioOutputPath (vi : VideoInfo) (output_dir : Option String)
    (cwd : String) : String :=
  joinPath (resolvedDir output_dir cwd) (sanitize_filename (some (videoTitle vi)) ++ ".mp3")

/-- The externals `download_audio` consults, in program order:
`get_video_info` (`none` models its failure branches), the two
`os.path.exists` checks on the output path (lines 142 and 169, reading
the filesystem before and after the extraction subprocess), whether the
yt-dlp extraction subprocess completed without raising (`check=True`
turns a nonzero exit into an exception caught at line 189), and the
parameters of `process_metadata`. -/
structure AudioEnv where
  info : Option VideoInfo
  existsBefore : String → Bool
  extractOk : Bool
  existsAfter : String → Bool
  apiKey : Option String
  apiOutcome : ApiOutcome

/-- Observable outcome of one `download_audio` run: the returned flag,
how many times the extraction tool was invoked, and whether
`update_mp3_metadata` was called (the truthiness guard `if title and
artist` at line 172). -/
structure AudioTrace where
  ok : Bool
  extractorCalls : Nat
  tagWrite : Bool
  deriving DecidableEq, Repr

/-- Embeds `download_audio(url, output_dir, ...)` (lines 115-194).  The
Navidrome sync and Telegram notification are fire-and-log side effects
with no influence on the return value and are not recorded. -/
def download_audio (env : AudioEnv) (output_dir : Option String)
    (cwd : String) : AudioTrace :=
  match env.info with
  | none => ⟨false, 0, false⟩
  | some vi =>
    let output_path := audioOutputPath vi output_dir cwd
    if env.existsBefore output_path then ⟨true, 0, false⟩
    else if env.extractOk then
      if env.existsAfter output_path then
        let p := process_metadata env.apiKey env.apiOutcome (videoTitle vi)
        ⟨true, 1, (p.1 != "") && (p.2 != "")⟩
      else ⟨true, 1, false⟩
    else ⟨false, 1, false⟩

/-! ## `download_playlist` (youtube_mp3.py lines 196-245) -/

/-- One record of the flat-playlist listing, as `download_playlist`
reads it (the `id` and `title` fields of each `video_info`). -/
structure PlaylistItem where
  id : String
  title : String

/-- Observable outcome of one `download_playlist` run: how many times
the per-item pipeline (`download_audio`) ran, the cumulative seconds
slept between items, and the returned flag. -/
structure PlaylistTrace where
  calls : Nat
  sleepSeconds : Nat
  ok : Bool
  deriving DecidableEq, Repr

/-- Lines 221-224: `for remaining in range(delay, 0, -1): ...
time.sleep(1)` — one second of sleep per loop iteration. -/
def countdownSleep (delay : Nat) : Nat :=
  (List.range delay).foldl (fun acc _ => acc + 1) 0

/-- Embeds `download_playlist(playlist_url, output_dir, delay)` (lines
196-245), with the flat listing passed in as `videos` and the result of
the `download_audio` call of each item abstracted as `dl i` for the `i`-th
item (`download_audio` catches its own exceptions and returns a
boolean, so no exception escapes the per-item loop).  Line 219 sleeps
only between items (`i < len(videos) - 1`) and only after a successful
item (`and success`).  After the loop, the re-sync pass at lines
229-236 calls `os.listdir(output_dir)`, which raises when the output
directory does not exist (possible when no item ever reached
`os.makedirs`); `rescanOk` records whether that re-scan completes.  Its
exception is caught by the `except Exception` at lines 243-245, which
returns `False` — after the per-item loop, so the recorded calls and
sleeps stand.  `sync_to_navidrome` and `send_telegram_message` swallow
their own errors. -/
def download_playlist (videos : List PlaylistItem) (dl : Nat → Bool)
    (delay : Nat) (rescanOk : Bool) : PlaylistTrace :=
  if videos.length = 0 then ⟨0, 0, false⟩
  else
    let n := videos.length
    let p := (List.range n).foldl
      (fun (acc : Nat × Nat) i =>
        (acc.1 + 1,
         acc.2 + (if decide (i < n - 1) && dl i then countdownSleep delay else 0)))
      (0, 0)
    if rescanOk then ⟨p.1, p.2, true⟩ else ⟨p.1, p.2, false⟩

/-! ## Spec-side definition, for refinement comparison -/

/-- Follows the wording of the spec (§4.4 step 1, §8): split the raw title on
the `" - "` delimiter — first segment the artist, remainder the title,
each stripped of surrounding whitespace — or return (raw title,
"Unknown Artist") when no delimiter is present. -/
def heuristicSplitSpec (raw : String) : String × String :=
  match splitFirst raw " - " with
  | some (first, remainder) => (pyStrip remainder, pyStrip first)
  | none => (raw, "Unknown Artist")

/-- The backtick character (named, for use in lemma statements). -/
def btick : Char := '\x60'

/-! ## Helper lemmas -/

/-- The function `dropWhile` distributes over append, by cases on whether the first
block is dropped entirely. -/
theorem dropWhile_append_split (p : Char → Bool) (l1 l2 : List Char) :
    List.dropWhile p (l1 ++ l2) =
      if (List.dropWhile p l1).isEmpty then List.dropWhile p l2
      else List.dropWhile p l1 ++ l2 := by
  induction l1 with
  | nil => simp
  | cons a l ih =>
    by_cases h : p a <;> simp [List.dropWhile_cons, h, ih]

/-- A string whose characters start with a non-nil list is not empty. -/
theorem ne_empty_of_data_cons {s : String} {c : Char} {t : List Char}
    (h : s.data = c :: t) : s ≠ "" := by
  intro he
  subst he
  simp at h

/-- The JSON grammar has no production starting with a backtick. -/
theorem parseVal_btick (fuel : Nat) (cs : List Char) :
    parseVal fuel (btick :: cs) = none := by
  cases fuel with
  | zero => rfl
  | succ n => simp [parseVal, btick, isPrefixL]

/-- The model of `json.loads` fails on any input starting with a backtick. -/
theorem parseTopL_btick (cs : List Char) : parseTopL (btick :: cs) = none := by
  have h1 : List.dropWhile isWsChar (btick :: cs) = btick :: cs := by
    simp [List.dropWhile_cons, isWsChar, btick]
  simp [parseTopL, h1, parseVal_btick]

/-- Stripping is the identity when both ends hold non-whitespace. -/
theorem pyStripL_front_back (c d : Char) (mid : List Char)
    (hc : pyWs c = false) (hd : pyWs d = false) :
    pyStripL (c :: (mid ++ [d])) = c :: (mid ++ [d]) := by
  simp [pyStripL, List.dropWhile_cons, hc, hd, List.reverse_append]

/-- Stripping absorbs one whitespace character on each end. -/
theorem pyStripL_ws_wrap (c d : Char) (b : List Char)
    (hc : pyWs c = true) (hd : pyWs d = true) :
    pyStripL (c :: (b ++ [d])) = pyStripL b := by
  simp only [pyStripL, List.dropWhile_cons, hc, if_true]
  rw [dropWhile_append_split]
  by_cases hb : (List.dropWhile pyWs b).isEmpty
  · simp [hb, List.dropWhile_cons, hd]
    rw [List.isEmpty_iff] at hb
    simp [hb]
  · simp [hb, List.reverse_append, List.dropWhile_cons, hd]

/-- Stripping preserves a leading run of three non-whitespace
characters. -/
theorem pyStripL_keep3 (a b c : Char) (t : List Char)
    (ha : pyWs a = false) (hb : pyWs b = false) (hc : pyWs c = false) :
    ∃ u, pyStripL (a :: b :: c :: t) = a :: b :: c :: u := by
  have h1 : List.dropWhile pyWs (a :: b :: c :: t) = a :: b :: c :: t := by
    simp [List.dropWhile_cons, ha]
  have h2 : (a :: b :: c :: t).reverse = t.reverse ++ [c, b, a] := by
    simp
  simp only [pyStripL]
  rw [h1, h2, dropWhile_append_split]
  by_cases ht : (List.dropWhile pyWs t.reverse).isEmpty
  · refine ⟨[], ?_⟩
    simp [ht, List.dropWhile_cons, hc]
  · refine ⟨(List.dropWhile pyWs t.reverse).reverse, ?_⟩
    simp [ht, List.reverse_append]

/-- Removing a suffix of known length from an appended list. -/
theorem dropRightL_append (M S : List Char) :
    dropRightL (M ++ S) S.length = M := by
  simp [dropRightL, List.length_append, List.take_left]

/-- The cleanup pass on a reply fenced with a leading ````` ```json `````
marker and a trailing ````` ``` ````` marker recovers the stripped body. -/
theorem cleanL_json_fence (b : List Char) :
    cleanL ("```json\n".data ++ (b ++ "\n```".data)) = pyStripL b := by
  have hF : "```json\n".data ++ (b ++ "\n```".data)
      = btick :: btick :: btick :: 'j' :: 's' :: 'o' :: 'n' :: '\n' ::
          (b ++ ['\n', btick, btick, btick]) := rfl
  rw [hF]
  have hshape : btick :: btick :: btick :: 'j' :: 's' :: 'o' :: 'n' :: '\n' ::
        (b ++ ['\n', btick, btick, btick])
      = btick :: ((btick :: btick :: 'j' :: 's' :: 'o' :: 'n' :: '\n' ::
          (b ++ ['\n', btick, btick])) ++ [btick]) := by
    simp
  have hA : pyStripL (btick :: btick :: btick :: 'j' :: 's' :: 'o' :: 'n' :: '\n' ::
        (b ++ ['\n', btick, btick, btick]))
      = btick :: btick :: btick :: 'j' :: 's' :: 'o' :: 'n' :: '\n' ::
        (b ++ ['\n', btick, btick, btick]) := by
    rw [hshape]
    exact pyStripL_front_back _ _ _ (by decide) (by decide)
  have hpre : isPrefixL "```json".data
      (btick :: btick :: btick :: 'j' :: 's' :: 'o' :: 'n' :: '\n' ::
        (b ++ ['\n', btick, btick, btick])) = true := by
    rw [show "```json".data = [btick, btick, btick, 'j', 's', 'o', 'n'] from rfl]
    simp [isPrefixL]
  have hdrop : (btick :: btick :: btick :: 'j' :: 's' :: 'o' :: 'n' :: '\n' ::
        (b ++ ['\n', btick, btick, btick])).drop 7
      = '\n' :: (b ++ ['\n', btick, btick, btick]) := rfl
  have hrev : ('\n' :: (b ++ ['\n', btick, btick, btick])).reverse
      = btick :: btick :: btick :: '\n' :: (b.reverse ++ ['\n']) := by
    simp
  have hsuf : isSuffixL "```".data ('\n' :: (b ++ ['\n', btick, btick, btick])) = true := by
    rw [isSuffixL, hrev, show "```".data.reverse = [btick, btick, btick] from rfl]
    simp [isPrefixL]
  have hsplit : '\n' :: (b ++ ['\n', btick, btick, btick])
      = ('\n' :: (b ++ ['\n'])) ++ [btick, btick, btick] := by
    simp
  have hE : dropRightL ('\n' :: (b ++ ['\n', btick, btick, btick])) 3
      = '\n' :: (b ++ ['\n']) := by
    rw [hsplit]
    exact dropRightL_append ('\n' :: (b ++ ['\n'])) [btick, btick, btick]
  simp only [cleanL]
  rw [hA, hpre]
  simp only [if_true]
  rw [hdrop, hsuf]
  simp only [if_true]
  rw [hE]
  exact pyStripL_ws_wrap '\n' '\n' b (by decide) (by decide)

/-- The cleanup pass on a reply fenced with a bare ````` ``` ````` marker
(no `json` language tag) leaves the three leading backticks in place. -/
theorem cleanL_bare_fence (b : List Char) :
    ∃ u, cleanL ("```\n".data ++ (b ++ "\n```".data)) = btick :: btick :: btick :: u := by
  have hF : "```\n".data ++ (b ++ "\n```".data)
      = btick :: btick :: btick :: '\n' :: (b ++ ['\n', btick, btick, btick]) := rfl
  rw [hF]
  have hshape : btick :: btick :: btick :: '\n' :: (b ++ ['\n', btick, btick, btick])
      = btick :: ((btick :: btick :: '\n' :: (b ++ ['\n', btick, btick])) ++ [btick]) := by
    simp
  have hA : pyStripL (btick :: btick :: btick :: '\n' :: (b ++ ['\n', btick, btick, btick]))
      = btick :: btick :: btick :: '\n' :: (b ++ ['\n', btick, btick, btick]) := by
    rw [hshape]
    exact pyStripL_front_back _ _ _ (by decide) (by decide)
  have hpre : isPrefixL "```json".data
      (btick :: btick :: btick :: '\n' :: (b ++ ['\n', btick, btick, btick])) = false := by
    rw [show "```json".data = [btick, btick, btick, 'j', 's', 'o', 'n'] from rfl]
    simp [isPrefixL, btick]
  have hrev : (btick :: btick :: btick :: '\n' :: (b ++ ['\n', btick, btick, btick])).reverse
      = btick :: btick :: btick :: '\n' :: (b.reverse ++ ['\n', btick, btick, btick]) := by
    simp
  have hsuf : isSuffixL "```".data
      (btick :: btick :: btick :: '\n' :: (b ++ ['\n', btick, btick, btick])) = true := by
    rw [isSuffixL, hrev, show "```".data.reverse = [btick, btick, btick] from rfl]
    simp [isPrefixL]
  have hsplit : btick :: btick :: btick :: '\n' :: (b ++ ['\n', btick, btick, btick])
      = (btick :: btick :: btick :: '\n' :: (b ++ ['\n'])) ++ [btick, btick, btick] := by
    simp
  have hE : dropRightL (btick :: btick :: btick :: '\n' :: (b ++ ['\n', btick, btick, btick])) 3
      = btick :: btick :: btick :: '\n' :: (b ++ ['\n']) := by
    rw [hsplit]
    exact dropRightL_append _ [btick, btick, btick]
  obtain ⟨u, hu⟩ := pyStripL_keep3 btick btick btick ('\n' :: (b ++ ['\n']))
    (by decide) (by decide) (by decide)
  refine ⟨u, ?_⟩
  simp only [cleanL]
  rw [hA, hpre]
  simp only [if_false, Bool.false_eq_true]
  rw [hsuf]
  simp only [if_true]
  rw [hE]
  exact hu

/-- The countdown loop sleeps exactly `delay` seconds. -/
theorem countdownSleep_eq (delay : Nat) : countdownSleep delay = delay := by
  have h : ∀ (l : List Nat) (a : Nat), l.foldl (fun acc _ => acc + 1) a = a + l.length := by
    intro l
    induction l with
    | nil => simp
    | cons x t ih => intro a; simp [ih, Nat.add_comm, Nat.add_assoc, Nat.add_left_comm]
  simp [countdownSleep, h]

/-- The playlist loop fold counts its iterations in the first component
and accumulates `g` in the second. -/
theorem foldl_pair_spec (l : List Nat) (g : Nat → Nat) (a b : Nat) :
    l.foldl (fun (acc : Nat × Nat) i => (acc.1 + 1, acc.2 + g i)) (a, b)
      = (a + l.length, b + (l.map g).sum) := by
  induction l generalizing a b with
  | nil => simp
  | cons x t ih =>
    simp only [List.foldl_cons, ih, List.length_cons, List.map_cons, List.sum_cons]
    rw [Prod.mk.injEq]
    refine ⟨by omega, by omega⟩

/-- Summing `delay`-or-`0` over a list counts the hits. -/
theorem sum_if_eq_mul_countP (dl : Nat → Bool) (delay : Nat) (l : List Nat) :
    (l.map (fun i => if dl i then delay else 0)).sum = delay * l.countP dl := by
  induction l with
  | nil => simp
  | cons x t ih =>
    by_cases h : dl x <;>
      simp [h, ih, List.countP_cons, Nat.mul_add, Nat.mul_succ, Nat.add_comm]

/-- Unfolding `cleanupPass` to the list level. -/
theorem cleanupPass_data (s : String) : (cleanupPass s).data = cleanL s.data := rfl

/-! ## Claims -/

/-- C4: with no inference-service credential configured (unset or empty
`GROQ_API_KEY`), `process_metadata` applies the heuristic split
immediately, exactly as the spec words it: for an input containing
`" - "` it returns (remainder after the first delimiter, first segment),
each stripped; otherwise (the whole input, "Unknown Artist").  In
particular `"Artist - Song"` yields `("Song", "Artist")` and
`"Just A Title"` yields `("Just A Title", "Unknown Artist")`. -/
theorem claim_C4 (o : ApiOutcome) (fn : String) :
    process_metadata none o fn = heuristicSplitSpec fn ∧
    process_metadata (some "") o fn = heuristicSplitSpec fn ∧
    process_metadata none o "Artist - Song" = ("Song", "Artist") ∧
    process_metadata none o "Just A Title" = ("Just A Title", "Unknown Artist") :=
  ⟨rfl, rfl, rfl, rfl⟩

/-- C9: with a credential configured, a completed call whose message
content is empty (or absent) makes `process_metadata` return
(raw title, "Unknown Artist") verbatim, without the `" - "` split. -/
theorem claim_C9 (k fn : String) (hk : k ≠ "") :
    process_metadata (some k) (.ok "") fn = (fn, "Unknown Artist") := by
  simp [process_metadata, hk]

/-- C9 witness: a raw title containing the delimiter comes back
verbatim, not split. -/
theorem claim_C9_witness :
    process_metadata (some "k") (.ok "") "Artist - Song"
      = ("Artist - Song", "Unknown Artist") :=
  claim_C9 "k" "Artist - Song" (by decide)

/-- C7: for an input containing illegal characters, the sanitizer output
is the input with exactly the illegal characters removed (all other
characters preserved in order) and contains no illegal character; empty
or absent input yields the fixed placeholder. -/
theorem claim_C7 (s : String) (hs : s.data.any isIllegalChar = true) :
    (sanitize_filename (some s)).data = s.data.filter (fun c => !(isIllegalChar c)) ∧
    (sanitize_filename (some s)).data.all (fun c => !(isIllegalChar c)) = true ∧
    sanitize_filename none = "unknown_title" ∧
    sanitize_filename (some "") = "unknown_title" := by
  have hne : s ≠ "" := by
    intro he
    subst he
    simp at hs
  refine ⟨by simp [sanitize_filename, hne], ?_, rfl, rfl⟩
  simp only [sanitize_filename, hne, if_neg, List.all_eq_true]
  intro c hc
  have := List.of_mem_filter hc
  simpa using this

/-- C7 witness at a title containing `/` and `:`. -/
theorem claim_C7_witness :
    ("a/b:c").data.any isIllegalChar = true ∧
    (sanitize_filename (some "a/b:c")).data
      = ("a/b:c").data.filter (fun c => !(isIllegalChar c)) ∧
    (sanitize_filename (some "a/b:c")).data.all (fun c => !(isIllegalChar c)) = true :=
  ⟨by decide, (claim_C7 "a/b:c" (by decide)).1, (claim_C7 "a/b:c" (by decide)).2.1⟩

/-- C3: when a file already exists at the deterministic output path,
`download_audio` reports success, never invokes the extraction tool,
and writes no tags — the repeated run is a no-op. -/
theorem claim_C3 (vi : VideoInfo) (eb ea : String → Bool) (xo : Bool)
    (ak : Option String) (ao : ApiOutcome) (od : Option String) (cwd : String)
    (hex : eb (audioOutputPath vi od cwd) = true) :
    download_audio ⟨some vi, eb, xo, ea, ak, ao⟩ od cwd = ⟨true, 0, false⟩ := by
  simp [download_audio, hex]

/-- C3 witness: with the output file present, even a failing extractor
stub is never consulted. -/
theorem claim_C3_witness :
    (fun _ : String => true) (audioOutputPath ⟨"My Song", "id1"⟩ none "/home/u") = true ∧
    download_audio ⟨some ⟨"My Song", "id1"⟩, fun _ => true, false, fun _ => false, none, .fail⟩
        none "/home/u" = ⟨true, 0, false⟩ :=
  ⟨rfl, claim_C3 ⟨"My Song", "id1"⟩ (fun _ => true) (fun _ => false) false none .fail
    none "/home/u" rfl⟩

/-- The playlist loop runs `download_audio` once per listed item and
accumulates the guarded countdown sleeps, whether or not the post-loop
re-scan completes. -/
theorem playlist_loop_spec (videos : List PlaylistItem) (dl : Nat → Bool)
    (delay : Nat) (rescanOk : Bool) :
    (download_playlist videos dl delay rescanOk).calls = videos.length ∧
    (download_playlist videos dl delay rescanOk).sleepSeconds
      = delay * (List.range (videos.length - 1)).countP dl := by
  cases videos with
  | nil => cases rescanOk <;> simp [download_playlist]
  | cons v vs =>
    have hlen : (v :: vs).length = vs.length + 1 := rfl
    have hne : (v :: vs).length ≠ 0 := by simp
    have hsum : ((List.range (v :: vs).length).map
          (fun i => if decide (i < (v :: vs).length - 1) && dl i
            then countdownSleep delay else 0)).sum
        = delay * (List.range ((v :: vs).length - 1)).countP dl := by
      have hsucc : List.range (v :: vs).length = List.range vs.length ++ [vs.length] := by
        rw [hlen]
        simp [List.range_succ]
      have hlast : (if decide (vs.length < (v :: vs).length - 1) && dl vs.length
          then countdownSleep delay else 0) = 0 := by
        simp [hlen]
      have hcongr : (List.range vs.length).map
            (fun i => if decide (i < (v :: vs).length - 1) && dl i
              then countdownSleep delay else 0)
          = (List.range vs.length).map (fun i => if dl i then delay else 0) := by
        refine List.map_congr_left ?_
        intro i hi
        have hi' : i < vs.length := List.mem_range.mp hi
        simp [hlen, hi', countdownSleep_eq]
      rw [hsucc, List.map_append, List.sum_append, hcongr, sum_if_eq_mul_countP]
      simp [hlast, hlen]
    simp only [download_playlist, hne, if_neg, if_false]
    rw [foldl_pair_spec]
    cases rescanOk <;> exact ⟨by simp, by simpa using hsum⟩

/-- C2 counterexample: a two-item playlist whose first download fails
(re-scan pass completing) runs the pipeline twice but sleeps 0 seconds,
not (N-1)×D = 60: line 219 guards the inter-item sleep with
`and success`. -/
theorem claim_C2_counterexample :
    (download_playlist [⟨"a", "t1"⟩, ⟨"b", "t2"⟩] (fun _ => false) 60 true).calls = 2 ∧
    (download_playlist [⟨"a", "t1"⟩, ⟨"b", "t2"⟩] (fun _ => false) 60 true).sleepSeconds = 0 ∧
    (0 : Nat) ≠ (2 - 1) * 60 :=
  ⟨rfl, rfl, by decide⟩

/-- C2 amended: the orchestrator invokes the per-item pipeline exactly
N times, and sleeps D seconds after each of the first N-1 items whose
download succeeded — cumulatively D × (number of successes among the
first N-1 items), not (N-1)×D unconditionally. -/
theorem claim_C2_amended (videos : List PlaylistItem) (dl : Nat → Bool)
    (delay : Nat) (rescanOk : Bool) :
    (download_playlist videos dl delay rescanOk).calls = videos.length ∧
    (download_playlist videos dl delay rescanOk).sleepSeconds
      = delay * (List.range (videos.length - 1)).countP dl :=
  playlist_loop_spec videos dl delay rescanOk

/-- C8: the playlist orchestrator returns failure exactly when the item
list is empty or an exception escapes (`download_audio` catches its own
exceptions, so the only escape is the post-loop `os.listdir` re-scan
raising — `rescanOk = false` — caught at lines 243-245); otherwise it
returns success and still runs the pipeline once per item, whatever the
individual download results — a failing item never halts the
iteration. -/
theorem claim_C8 (videos : List PlaylistItem) (dl : Nat → Bool)
    (delay : Nat) (rescanOk : Bool) :
    ((download_playlist videos dl delay rescanOk).ok = true
      ↔ (videos ≠ [] ∧ rescanOk = true)) ∧
    (download_playlist videos dl delay rescanOk).calls = videos.length := by
  refine ⟨?_, (playlist_loop_spec videos dl delay rescanOk).1⟩
  cases videos with
  | nil => cases rescanOk <;> simp [download_playlist]
  | cons v vs =>
    have hne : (v :: vs).length ≠ 0 := by simp
    cases rescanOk <;> simp [download_playlist, hne]

/-- C1 counterexample: with a credential configured, the malformed
reply `"not json"` (which fails both parse attempts) makes
`process_metadata` return `("", "")` — not the heuristic split
`("Song", "Artist")` of the raw title that the claim requires. -/
theorem claim_C1_counterexample :
    process_metadata (some "k") (.ok "not json") "Artist - Song" = ("", "") ∧
    heuristicFallback "Artist - Song" = ("Song", "Artist") ∧
    (("" : String), ("" : String)) ≠ (("Song" : String), ("Artist" : String)) :=
  ⟨rfl, rfl, by decide⟩

/-- C1 amended: when the external call raises, `process_metadata` falls
back to the heuristic split of the raw title (or (raw title, "Unknown
Artist") without a delimiter), exactly as the spec words it; but when
the call completes and returns malformed data that fails both parse
attempts, it returns `("", "")` instead of the heuristic result. -/
theorem claim_C1_amended (k fn r : String) (hk : k ≠ "") (hr : r ≠ "")
    (h1 : jsonParse r = none) (h2 : jsonParse (cleanupPass r) = none) :
    process_metadata (some k) ApiOutcome.fail fn = heuristicSplitSpec fn ∧
    process_metadata (some k) (.ok r) fn = ("", "") := by
  have pa1 : parseAttempt r = .failed := by
    unfold parseAttempt
    rw [h1]
  have pa2 : parseAttempt (cleanupPass r) = .failed := by
    unfold parseAttempt
    rw [h2]
  constructor
  · have hred : process_metadata (some k) ApiOutcome.fail fn
        = if k = "" then heuristicFallback fn else heuristicFallback fn := rfl
    rw [hred, ite_self]
    rfl
  · simp [process_metadata, hk, hr, pa1, pa2]

/-- C1 witness. -/
theorem claim_C1_witness :
    process_metadata (some "k") ApiOutcome.fail "Artist - Song"
      = heuristicSplitSpec "Artist - Song" ∧
    process_metadata (some "k") (.ok "nope") "Artist - Song" = ("", "") :=
  claim_C1_amended "k" "Artist - Song" "nope" (by decide) (by decide) rfl rfl

/-- C5: a reply consisting of a JSON object wrapped in a leading
````` ```json ````` marker and a trailing ````` ``` ````` marker fails
the direct parse, is unfenced by the cleanup pass, and yields the
embedded (title, artist) pair. -/
theorem claim_C5 (k fn body : String) (fields : List (String × JVal))
    (hk : k ≠ "")
    (hb : jsonParse (pyStrip body) = some (.obj fields)) :
    process_metadata (some k) (.ok ("```json\n" ++ body ++ "\n```")) fn
      = (getStr fields "title", getStr fields "artist") := by
  have hdata : ("```json\n" ++ body ++ "\n```").data
      = "```json\n".data ++ (body.data ++ "\n```".data) := by
    simp [String.data_append]
  have hcons : ("```json\n" ++ body ++ "\n```").data
      = btick :: (btick :: btick :: 'j' :: 's' :: 'o' :: 'n' :: '\n' ::
          (body.data ++ "\n```".data)) := by
    rw [hdata]
    rfl
  have hne : ("```json\n" ++ body ++ "\n```") ≠ "" := ne_empty_of_data_cons hcons
  have hp1 : jsonParse ("```json\n" ++ body ++ "\n```") = none := by
    unfold jsonParse
    rw [hcons]
    exact parseTopL_btick _
  have hclean : (cleanupPass ("```json\n" ++ body ++ "\n```")).data
      = pyStripL body.data := by
    rw [cleanupPass_data, hdata]
    exact cleanL_json_fence body.data
  have hp2 : jsonParse (cleanupPass ("```json\n" ++ body ++ "\n```"))
      = some (.obj fields) := by
    unfold jsonParse
    rw [hclean]
    exact hb
  have pa1 : parseAttempt ("```json\n" ++ body ++ "\n```") = .failed := by
    unfold parseAttempt
    rw [hp1]
  have pa2 : parseAttempt (cleanupPass ("```json\n" ++ body ++ "\n```"))
      = .fields fields := by
    unfold parseAttempt
    rw [hp2]
  simp [process_metadata, hk, hne, pa1, pa2]

/-- C5 witness: the fenced two-field object from the example in the spec. -/
theorem claim_C5_witness :
    process_metadata (some "k")
        (.ok ("```json\n" ++ "\x7b\"title\":\"A\",\"artist\":\"B\"\x7d" ++ "\n```")) "raw"
      = ("A", "B") :=
  claim_C5 "k" "raw" "\x7b\"title\":\"A\",\"artist\":\"B\"\x7d"
    [("title", .str "A"), ("artist", .str "B")] (by decide) rfl

/-- C6: a non-empty reply failing both parse attempts yields `("", "")`,
and the caller (`download_audio`, via the guard `if title and artist` at
line 172) then skips the metadata write in every branch. -/
theorem claim_C6 (k r fn : String) (vi : VideoInfo) (eb ea : String → Bool)
    (xo : Bool) (od : Option String) (cwd : String)
    (hk : k ≠ "") (hr : r ≠ "")
    (h1 : jsonParse r = none) (h2 : jsonParse (cleanupPass r) = none) :
    process_metadata (some k) (.ok r) fn = ("", "") ∧
    (download_audio ⟨some vi, eb, xo, ea, some k, .ok r⟩ od cwd).tagWrite = false := by
  have pa1 : parseAttempt r = .failed := by
    unfold parseAttempt
    rw [h1]
  have pa2 : parseAttempt (cleanupPass r) = .failed := by
    unfold parseAttempt
    rw [h2]
  have hpm : ∀ t : String, process_metadata (some k) (.ok r) t = ("", "") := by
    intro t
    simp [process_metadata, hk, hr, pa1, pa2]
  refine ⟨hpm fn, ?_⟩
  simp only [download_audio]
  by_cases hb1 : eb (audioOutputPath vi od cwd)
  · simp [hb1]
  · cases xo with
    | false => simp [hb1]
    | true =>
      by_cases hb2 : ea (audioOutputPath vi od cwd)
      · simp [hb1, hb2, hpm]
      · simp [hb1, hb2]

/-- C6 witness. -/
theorem claim_C6_witness :
    process_metadata (some "k") (.ok "oops") "Artist - Song" = ("", "") ∧
    (download_audio ⟨some ⟨"T", "id"⟩, fun _ => false, true, fun _ => true,
        some "k", .ok "oops"⟩ none "/d").tagWrite = false :=
  claim_C6 "k" "oops" "Artist - Song" ⟨"T", "id"⟩ (fun _ => false) (fun _ => true)
    true none "/d" (by decide) (by decide) rfl rfl

/-- C10: the cleanup pass only strips a leading fence spelled exactly
`\x60\x60\x60json`; a bare three-backtick opening fence survives the
pass, so the retry parse fails and `process_metadata` returns
`("", "")` although the fenced content is valid JSON. -/
theorem claim_C10 (k fn body : String) (j : JVal) (hk : k ≠ "")
    (hb : jsonParse (pyStrip body) = some j) :
    isPrefixL "```".data (cleanupPass ("```\n" ++ body ++ "\n```")).data = true ∧
    jsonParse (cleanupPass ("```\n" ++ body ++ "\n```")) = none ∧
    process_metadata (some k) (.ok ("```\n" ++ body ++ "\n```")) fn = ("", "") := by
  have hdata : ("```\n" ++ body ++ "\n```").data
      = "```\n".data ++ (body.data ++ "\n```".data) := by
    simp [String.data_append]
  obtain ⟨u, hu⟩ := cleanL_bare_fence body.data
  have hclean : (cleanupPass ("```\n" ++ body ++ "\n```")).data
      = btick :: btick :: btick :: u := by
    rw [cleanupPass_data, hdata]
    exact hu
  have hcons : ("```\n" ++ body ++ "\n```").data
      = btick :: (btick :: btick :: '\n' :: (body.data ++ "\n```".data)) := by
    rw [hdata]
    rfl
  have hne : ("```\n" ++ body ++ "\n```") ≠ "" := ne_empty_of_data_cons hcons
  have hp1 : jsonParse ("```\n" ++ body ++ "\n```") = none := by
    unfold jsonParse
    rw [hcons]
    exact parseTopL_btick _
  have hp2 : jsonParse (cleanupPass ("```\n" ++ body ++ "\n```")) = none := by
    unfold jsonParse
    rw [hclean]
    exact parseTopL_btick _
  refine ⟨?_, hp2, ?_⟩
  · rw [hclean, show "```".data = [btick, btick, btick] from rfl]
    simp [isPrefixL]
  · have pa1 : parseAttempt ("```\n" ++ body ++ "\n```") = .failed := by
      unfold parseAttempt
      rw [hp1]
    have pa2 : parseAttempt (cleanupPass ("```\n" ++ body ++ "\n```")) = .failed := by
      unfold parseAttempt
      rw [hp2]
    simp [process_metadata, hk, hne, pa1, pa2]

/-- C10 witness: a bare-fenced valid JSON object still comes back as
`("", "")`. -/
theorem claim_C10_witness :
    isPrefixL "```".data
        (cleanupPass ("```\n" ++ "\x7b\"title\":\"A\"\x7d" ++ "\n```")).data = true ∧
    jsonParse (cleanupPass ("```\n" ++ "\x7b\"title\":\"A\"\x7d" ++ "\n```")) = none ∧
    process_metadata (some "k")
        (.ok ("```\n" ++ "\x7b\"title\":\"A\"\x7d" ++ "\n```")) "raw" = ("", "") :=
  claim_C10 "k" "raw" "\x7b\"title\":\"A\"\x7d" (.obj [("title", .str "A")])
    (by decide) rfl
